import Mathlib

/-!
Verification of the fanqienovel-downloader core pipeline (src/tmp.py,
class `NovelDownloader`): data model of the per-book content record,
the chapter fetcher (`_download_chapter` / `_download_chapter_content`),
the structural markup fallback, the orchestration fold over completed
futures in `_download_txt`, and the renderers (`_save_single_txt`,
`_download_latex`).

Python dicts are embedded as association lists with insertion-order
semantics (`dictUpdate` overwrites in place, otherwise appends).  The
network is embedded as an oracle `Nat → AttemptOutcome` giving the
outcome of each successive endpoint attempt; `time.sleep` calls are
dropped (they do not affect data flow).
-/

namespace Fanqie

/-- Metadata block stored under the reserved `_metadata` key of a book
record (`_download_txt`, lines 211-218 of src/tmp.py).  `status` is
`status[0] if status else None`. -/
structure Meta where
  novelId : String
  name : String
  status : Option String
  lastUpdated : String
deriving DecidableEq, Repr

/-- Value stored in a book record: a chapter body (string) or the
metadata block (a nested dict). -/
inductive JVal where
  | str : String → JVal
  | meta : Meta → JVal
deriving DecidableEq, Repr

/-- Python truthiness of a record value: an empty string is falsy,
any other string is truthy, and the metadata dict (4 keys) is truthy. -/
def JVal.truthy : JVal → Bool
  | .str s => !s.isEmpty
  | .meta _ => true

/-- A per-book content record: a Python dict in insertion order,
mapping the reserved key `_metadata` and chapter titles to values. -/
abbrev Record := List (String × JVal)

/-- Membership test of a key in a Python dict (`k in d`). -/
def dictMem (d : List (String × α)) (k : String) : Bool :=
  d.any (fun p => p.1 == k)

/-- Lookup in a Python dict (`d[k]` guarded by `k in d`). -/
def dictGet? (d : List (String × α)) (k : String) : Option α :=
  (d.find? (fun p => p.1 == k)).map Prod.snd

/-- Assignment `d[k] = v` in a Python dict: an existing key keeps its
position and gets the new value, a fresh key is appended at the end. -/
def dictUpdate (d : List (String × α)) (k : String) (v : α) : List (String × α) :=
  if dictMem d k then d.map (fun p => if p.1 == k then (k, v) else p)
  else d ++ [(k, v)]

/-! ### Basic dict lemmas -/

theorem find?_key_eq_none {d : List (String × α)} {k : String}
    (h : dictMem d k = false) : List.find? (fun p => p.1 == k) d = none := by
  induction d with
  | nil => rfl
  | cons p rest ih =>
    simp only [dictMem, List.any_cons, Bool.or_eq_false_iff] at h
    rw [List.find?_cons_of_neg _ (by simp [h.1]), ih (by simp [dictMem, h.2])]

theorem dictGet?_dictUpdate_self (d : List (String × α)) (k : String) (v : α) :
    dictGet? (dictUpdate d k v) k = some v := by
  unfold dictUpdate
  by_cases h : dictMem d k
  · simp only [h, if_true]
    induction d with
    | nil => simp [dictMem] at h
    | cons p rest ih =>
      by_cases hp : p.1 == k
      · have hpk : p.1 = k := by simpa using hp
        have hmap : (p :: rest).map (fun q => if q.1 == k then (k, v) else q)
            = (k, v) :: rest.map (fun q => if q.1 == k then (k, v) else q) := by
          simp [hpk]
        rw [hmap]
        simp [dictGet?, List.find?_cons_of_pos]
      · simp only [dictMem, List.any_cons, hp, Bool.false_or] at h
        simp only [List.map_cons, hp, if_false]
        simp only [dictGet?]
        rw [List.find?_cons_of_neg _ (by simpa using hp)]
        exact ih h
  · simp only [h, if_false, Bool.false_eq_true]
    simp only [dictGet?, List.find?_append, find?_key_eq_none (by simpa using h)]
    simp [List.find?]

theorem dictGet?_eq_none_of_not_mem {d : List (String × α)} {k : String}
    (h : dictMem d k = false) : dictGet? d k = none := by
  simp [dictGet?, find?_key_eq_none h]

theorem dictMem_of_dictGet?_eq_some {d : List (String × α)} {k : String} {v : α}
    (hget : dictGet? d k = some v) : dictMem d k = true := by
  by_contra hb
  rw [dictGet?_eq_none_of_not_mem (by simpa using hb)] at hget
  cases hget

theorem dictGet?_cons {a : String × α} {d : List (String × α)} {k : String} :
    dictGet? (a :: d) k = if a.1 == k then some a.2 else dictGet? d k := by
  simp only [dictGet?, List.find?]
  cases h : a.1 == k
  · simp [h]
  · simp [h]

theorem dictMem_cons {a : String × α} {d : List (String × α)} {k : String} :
    dictMem (a :: d) k = (a.1 == k || dictMem d k) := by
  simp [dictMem]

theorem repl_eq_of_beq {k : String} {v : α} {q : String × α} (h : (q.1 == k) = true) :
    (if q.1 == k then (k, v) else q) = (k, v) := by
  simp [h]

theorem repl_eq_of_ne {k : String} {v : α} {q : String × α} (h : (q.1 == k) = false) :
    (if q.1 == k then (k, v) else q) = q := by
  simp [h]

theorem fst_repl (k : String) (v : α) (q : String × α) :
    (if q.1 == k then (k, v) else q).1 = q.1 := by
  by_cases h : q.1 == k
  · have hqk : q.1 = k := by simpa using h
    rw [repl_eq_of_beq h]
    exact hqk.symm
  · rw [repl_eq_of_ne (by simpa using h)]

theorem map_repl_eq_self {k : String} {v : α} :
    ∀ {d : List (String × α)}, (d.map Prod.fst).Nodup → dictGet? d k = some v →
      d.map (fun q => if q.1 == k then (k, v) else q) = d := by
  intro d
  induction d with
  | nil => intro _ h; cases h
  | cons p rest ih =>
    intro hnd hget
    simp only [List.map_cons, List.nodup_cons] at hnd
    rw [dictGet?_cons] at hget
    by_cases hp : p.1 == k
    · have hpk : p.1 = k := by simpa using hp
      rw [if_pos hp] at hget
      have hpv : p = (k, v) := by
        have h2 : p.2 = v := by injection hget
        calc p = (p.1, p.2) := rfl
          _ = (k, v) := by rw [hpk, h2]
      have hrest : rest.map (fun q => if q.1 == k then (k, v) else q) = rest := by
        conv_rhs => rw [show rest = rest.map id from (List.map_id rest).symm]
        apply List.map_congr_left
        intro q hq
        have hqk : q.1 ≠ k := by
          intro he
          exact hnd.1 (hpk ▸ he ▸ (List.mem_map_of_mem Prod.fst hq))
        simpa [id] using repl_eq_of_ne (show (q.1 == k) = false by simpa using hqk)
      rw [List.map_cons, repl_eq_of_beq hp, hrest, hpv]
    · rw [if_neg (by simpa using hp)] at hget
      rw [List.map_cons, repl_eq_of_ne (by simpa using hp), ih hnd.2 hget]

/-- Updating every `k`-keyed entry with the value it already holds is the
identity, provided the keys are distinct (as they are in a Python dict). -/
theorem dictUpdate_eq_self {d : List (String × α)} {k : String} {v : α}
    (hnd : (d.map Prod.fst).Nodup) (hget : dictGet? d k = some v) :
    dictUpdate d k v = d := by
  unfold dictUpdate
  rw [dictMem_of_dictGet?_eq_some hget, if_pos rfl]
  exact map_repl_eq_self hnd hget

/-- A `dictUpdate` leaves every entry whose key differs from `k` exactly
in place. -/
theorem filter_dictUpdate (d : List (String × α)) (k : String) (v : α) :
    (dictUpdate d k v).filter (fun p => p.1 != k) = d.filter (fun p => p.1 != k) := by
  unfold dictUpdate
  by_cases h : dictMem d k
  · rw [if_pos h]
    clear h
    induction d with
    | nil => rfl
    | cons p rest ih =>
      rw [List.map_cons, List.filter_cons, List.filter_cons]
      by_cases hp : p.1 == k
      · have h1 : (((k, v) : String × α).1 != k) = false := by simp
        have h2 : (p.1 != k) = false := by simpa using hp
        simp only [repl_eq_of_beq hp, h1, h2, Bool.false_eq_true, if_false]
        exact ih
      · have h2 : (p.1 != k) = true := by simpa using hp
        simp only [repl_eq_of_ne (by simpa using hp), h2, if_true]
        rw [ih]
  · rw [if_neg h, List.filter_append]
    simp [List.filter_cons]

/-- A `dictUpdate` preserves distinctness of the keys. -/
theorem nodup_keys_dictUpdate {d : List (String × α)} {k : String} {v : α}
    (hnd : (d.map Prod.fst).Nodup) : ((dictUpdate d k v).map Prod.fst).Nodup := by
  unfold dictUpdate
  by_cases h : dictMem d k
  · rw [if_pos h]
    have : (d.map (fun q => if q.1 == k then (k, v) else q)).map Prod.fst = d.map Prod.fst := by
      rw [List.map_map]
      apply List.map_congr_left
      intro p _
      exact fst_repl k v p
    rw [this]
    exact hnd
  · rw [if_neg h, List.map_append, List.nodup_append]
    refine ⟨hnd, by simp, ?_⟩
    intro a ha hb
    simp only [List.map_cons, List.map_nil, List.mem_singleton] at hb
    obtain ⟨p, hp, hpk⟩ := List.mem_map.mp ha
    have hmem : dictMem d k = true := by
      simp only [dictMem, List.any_eq_true]
      exact ⟨p, hp, by simp [hpk, hb]⟩
    simp [hmem] at h

/-! ### Structural fallback decoder

Lines 663-677 of `_download_chapter_content`: when both decode modes
fail, the raw markup is scanned character-by-character, tracking angle
bracket nesting in `tmp` (which starts at 1, and may go negative on
unbalanced markup, hence `Int`), emitting text at depth 0 and a collapsed
newline for a `p` seen at depth 1. -/

/-- Python `result.replace(chr(10) ++ chr(10), chr(10))`: replace each
non-overlapping left-to-right occurrence of two newlines by one. -/
def collapseNN : List Char → List Char
  | [] => []
  | '\n' :: '\n' :: rest => '\n' :: collapseNN rest
  | c :: rest => c :: collapseNN rest

/-- Loop body of the structural fallback (`for i in content: ...`),
carrying the nesting counter `tmp` and the accumulated `result`. -/
def fallbackLoop (tmp : Int) (result : List Char) : List Char → List Char
  | [] => result
  | i :: rest =>
    if i = '<' then fallbackLoop (tmp + 1) result rest
    else if i = '>' then fallbackLoop (tmp - 1) result rest
    else if tmp = 0 then fallbackLoop tmp (result ++ [i]) rest
    else if tmp = 1 ∧ i = 'p' then fallbackLoop tmp (collapseNN (result ++ ['\n'])) rest
    else fallbackLoop tmp result rest

/-- The structural fallback: `content = content[6:]`, then the scan with
`tmp = 1` and `result` initially empty. -/
def structuralFallback (content : List Char) : List Char :=
  fallbackLoop 1 [] (content.drop 6)

theorem mem_collapseNN (l : List Char) (c : Char) (h : c ∈ collapseNN l) : c ∈ l := by
  induction l using collapseNN.induct with
  | case1 => cases h
  | case2 rest ih =>
    rw [collapseNN] at h
    rcases List.mem_cons.mp h with h1 | h2
    · simp [h1]
    · exact List.mem_cons_of_mem _ (List.mem_cons_of_mem _ (ih h2))
  | case3 c' rest hne ih =>
    rw [collapseNN] at h
    · rcases List.mem_cons.mp h with h1 | h2
      · simp [h1]
      · exact List.mem_cons_of_mem _ (ih h2)
    · exact hne

theorem mem_fallbackLoop :
    ∀ (cs : List Char) (tmp : Int) (result : List Char) (c : Char),
      c ∈ fallbackLoop tmp result cs → c ∈ result ∨ c ∈ cs ∨ c = '\n' := by
  intro cs
  induction cs with
  | nil =>
    intro tmp result c h
    rw [fallbackLoop] at h
    exact Or.inl h
  | cons i rest ih =>
    intro tmp result c h
    rw [fallbackLoop] at h
    by_cases h1 : i = '<'
    · rw [if_pos h1] at h
      rcases ih _ _ _ h with ha | hb | hc
      · exact Or.inl ha
      · exact Or.inr (Or.inl (List.mem_cons_of_mem _ hb))
      · exact Or.inr (Or.inr hc)
    · rw [if_neg h1] at h
      by_cases h2 : i = '>'
      · rw [if_pos h2] at h
        rcases ih _ _ _ h with ha | hb | hc
        · exact Or.inl ha
        · exact Or.inr (Or.inl (List.mem_cons_of_mem _ hb))
        · exact Or.inr (Or.inr hc)
      · rw [if_neg h2] at h
        by_cases h3 : tmp = 0
        · rw [if_pos h3] at h
          rcases ih _ _ _ h with ha | hb | hc
          · rcases List.mem_append.mp ha with hm | hm
            · exact Or.inl hm
            · exact Or.inr (Or.inl (by simp [List.mem_singleton.mp hm]))
          · exact Or.inr (Or.inl (List.mem_cons_of_mem _ hb))
          · exact Or.inr (Or.inr hc)
        · rw [if_neg h3] at h
          by_cases h4 : tmp = 1 ∧ i = 'p'
          · rw [if_pos h4] at h
            rcases ih _ _ _ h with ha | hb | hc
            · rcases List.mem_append.mp (mem_collapseNN _ _ ha) with hm | hm
              · exact Or.inl hm
              · exact Or.inr (Or.inr (List.mem_singleton.mp hm))
            · exact Or.inr (Or.inl (List.mem_cons_of_mem _ hb))
            · exact Or.inr (Or.inr hc)
          · rw [if_neg h4] at h
            rcases ih _ _ _ h with ha | hb | hc
            · exact Or.inl ha
            · exact Or.inr (Or.inl (List.mem_cons_of_mem _ hb))
            · exact Or.inr (Or.inr hc)

/-- C8: For every input string, however malformed its markup, the
structural fallback decoder is total: it never raises and always returns
a string (possibly empty).  The fallback is embedded as the total
function `structuralFallback`; every primitive it uses (`drop 6`, the
character scan, the counter arithmetic on `tmp : Int`, the newline
collapse) is total on arbitrary input, and every character of the output
is drawn from the input or is an inserted newline — the function degrades
gracefully to best-effort plain text on any input. -/
theorem C8_structural_fallback_total (content : List Char) :
    ∃ r : List Char, structuralFallback content = r ∧
      ∀ c ∈ r, c ∈ content ∨ c = '\n' := by
  refine ⟨structuralFallback content, rfl, ?_⟩
  intro c hc
  rcases mem_fallbackLoop _ _ _ _ hc with ha | hb | hn
  · cases ha
  · exact Or.inl (List.mem_of_mem_drop hb)
  · exact Or.inr hn

/-- Witness for C8, at a concrete malformed input: the markup
`123456>a<b` (unbalanced bracket nesting) yields the plain text `a`. -/
theorem C8_structural_fallback_total_witness :
    structuralFallback ("123456>a<b".toList) = ['a'] ∧
      ∀ c ∈ ['a'], c ∈ "123456>a<b".toList ∨ c = '\n' := by
  constructor
  · rfl
  · intro c hc
    rcases (C8_structural_fallback_total ("123456>a<b".toList)) with ⟨r, hr, hsub⟩
    have : r = ['a'] := by rw [← hr]; rfl
    exact hsub c (this ▸ hc)

/-! ### Chapter fetcher

`_download_chapter` (lines 361-409) and `_download_chapter_content`
(lines 633-697).  The network is an oracle `Nat → AttemptOutcome`
indexed by successive endpoint attempts; `DLState` collects the shared
mutable fields of `NovelDownloader` touched by the fetcher (`tcs`, `cs`,
`zj`) together with instrumentation counting collaborator invocations
(`refreshCount` for `cookie.get`, `saveCount` for `utils.save_progress`)
and the next oracle index. -/

/-- Outcome of one iteration of the `for attempt in range(3)` loop of
`_download_chapter_content`: `ok` when decoded content was produced (by
the primary endpoint, whose decode ladder never fails thanks to
`structuralFallback`, or by the secondary endpoint), `fail` when both
endpoints failed, carrying the primary error message `str(e)` that the
final exception wraps. -/
inductive AttemptOutcome where
  | ok : String → AttemptOutcome
  | fail : String → AttemptOutcome
deriving DecidableEq, Repr

/-- Shared downloader state: `self.tcs` (failure counter), `self.cs`
(progress-save counter), `self.zj` (chapter cache), plus invocation
counters for the credential-refresh and save-progress collaborators and
the index of the next network attempt in the oracle stream. -/
structure DLState where
  tcs : Nat
  cs : Nat
  refreshCount : Nat
  saveCount : Nat
  zj : Record
  idx : Nat
deriving DecidableEq, Repr

/-- State at the start of a download run (`self.zj = {}; self.cs = 0;
self.tcs = 0`, lines 205-208). -/
def initState : DLState :=
  { tcs := 0, cs := 0, refreshCount := 0, saveCount := 0, zj := [], idx := 0 }

/-- Embedding of `_download_chapter_content` (non-test mode) with the
`for attempt in range(3)` loop unrolled: each attempt consumes one
oracle index; after the third consecutive failure the function raises
`Download failed after 3 attempts: {str(e)}`.  Returns the result and
the next unused oracle index. -/
def download_chapter_content (oracle : Nat → AttemptOutcome) (idx : Nat) :
    Except String String × Nat :=
  match oracle idx with
  | .ok c => (.ok c, idx + 1)
  | .fail _ =>
    match oracle (idx + 1) with
    | .ok c => (.ok c, idx + 2)
    | .fail _ =>
      match oracle (idx + 2) with
      | .ok c => (.ok c, idx + 3)
      | .fail e => (.error ("Download failed after 3 attempts: " ++ e), idx + 3)

/-- Lines 390-394 of `_download_chapter`: `self.cs += 1; if self.cs >= 5:
self.cs = 0; utils.save_progress(self, title, content)`. -/
def progressStep (st : DLState) : DLState :=
  let st1 : DLState := { st with cs := st.cs + 1 }
  if st1.cs ≥ 5 then { st1 with cs := 0, saveCount := st1.saveCount + 1 } else st1

/-- Lines 383-388 of `_download_chapter`: `self.tcs += 1; if self.tcs > 7:
self.tcs = 0; cookie.get(self, self.tzj)`.  This block sits behind a
second `content == 'err'` test inside the `else` of the identical test
at line 374 that already raised `Download failed`, so it can never run
(see `downloadChapterLoop`, where the branch is closed off by the two
contradictory guards). -/
def refreshStep (st : DLState) : DLState :=
  let st1 : DLState := { st with tcs := st.tcs + 1 }
  if st1.tcs > 7 then { st1 with tcs := 0, refreshCount := st1.refreshCount + 1 }
  else st1

/-- Embedding of the `while retries > 0` loop of `_download_chapter`
(lines 368-409), structurally recursive on `retries`.  The except branch
records `last_error`, decrements `retries`, and breaks when it hits 0
(after which `raise last_error` runs).  The cookie-refresh block of
lines 383-388 (`refreshStep` then `continue`) is guarded by a
`content == 'err'` test lying in the `else` of the identical test at
line 374, whose positive case raised; the embedding closes the branch
off with the contradiction of the two guards. -/
def downloadChapterLoop (oracle : Nat → AttemptOutcome) (title : String) :
    Nat → Option String → DLState → Except String (Option JVal) × DLState
  | 0, lastError, st =>
    (match lastError with
     | some e => .error e
     | none => .ok none, st)
  | retries + 1, _lastError, st =>
    match download_chapter_content oracle st.idx with
    | (.ok content, idxNew) =>
      let st1 : DLState := { st with idx := idxNew }
      if h : content = "err" then
        (if retries = 0 then (.error "Download failed", st1)
         else downloadChapterLoop oracle title retries (some "Download failed") st1)
      else if h2 : content = "err" then
        absurd h2 h
      else
        let st2 := progressStep st1
        (.ok (some (.str content)), { st2 with zj := dictUpdate st2.zj title (.str content) })
    | (.error e, idxNew) =>
      let st1 : DLState := { st with idx := idxNew }
      if retries = 0 then (.error e, st1)
      else downloadChapterLoop oracle title retries (some e) st1

/-- Embedding of `_download_chapter(title, chapter_id, existing_content)`
(lines 361-409): when `title in existing_content` the stored value is
returned immediately — copied into `self.zj` — with no network attempt;
otherwise the retry loop runs with `retries = 3`. -/
def download_chapter (oracle : Nat → AttemptOutcome) (title : String)
    (existing : Record) (st : DLState) : Except String (Option JVal) × DLState :=
  match dictGet? existing title with
  | some v => (.ok (some v), { st with zj := dictUpdate st.zj title v })
  | none => downloadChapterLoop oracle title 3 none st

theorem progressStep_idx (st : DLState) : (progressStep st).idx = st.idx := by
  unfold progressStep
  dsimp only
  by_cases h : st.cs + 1 ≥ 5
  · rw [if_pos h]
  · rw [if_neg h]

theorem dcc_idx_bounds (oracle : Nat → AttemptOutcome) (idx : Nat) :
    idx + 1 ≤ (download_chapter_content oracle idx).2 ∧
    (download_chapter_content oracle idx).2 ≤ idx + 3 := by
  unfold download_chapter_content
  rcases h0 : oracle idx with c | e
  · dsimp only
    omega
  · rcases h1 : oracle (idx + 1) with c | e2
    · dsimp only
      omega
    · rcases h2 : oracle (idx + 2) with c | e3
      · dsimp only
        omega
      · dsimp only
        omega

theorem dcc_all_fail (oracle : Nat → AttemptOutcome) (idx : Nat) (e0 e1 e2 : String)
    (h0 : oracle idx = .fail e0) (h1 : oracle (idx + 1) = .fail e1)
    (h2 : oracle (idx + 2) = .fail e2) :
    download_chapter_content oracle idx =
      (.error ("Download failed after 3 attempts: " ++ e2), idx + 3) := by
  unfold download_chapter_content
  rw [h0, h1, h2]

theorem downloadChapterLoop_idx_le (oracle : Nat → AttemptOutcome) (title : String) :
    ∀ (retries : Nat) (lastError : Option String) (st : DLState),
      (downloadChapterLoop oracle title retries lastError st).2.idx ≤ st.idx + 3 * retries := by
  intro retries
  induction retries with
  | zero =>
    intro lastError st
    cases lastError <;> simp [downloadChapterLoop]
  | succ n ih =>
    intro lastError st
    rw [downloadChapterLoop]
    rcases hd : download_chapter_content oracle st.idx with ⟨res, idxNew⟩
    have hb := dcc_idx_bounds oracle st.idx
    rw [hd] at hb
    dsimp only at hb
    cases res with
    | ok content =>
      dsimp only
      by_cases h : content = "err"
      · rw [dif_pos h]
        by_cases hr : n = 0
        · rw [if_pos hr]
          dsimp only
          omega
        · rw [if_neg hr]
          have := ih (some "Download failed") { st with idx := idxNew }
          dsimp only at this
          omega
      · rw [dif_neg h, dif_neg h]
        dsimp only
        rw [progressStep_idx]
        dsimp only
        omega
    | error e =>
      dsimp only
      by_cases hr : n = 0
      · rw [if_pos hr]
        dsimp only
        omega
      · rw [if_neg hr]
        have := ih (some e) { st with idx := idxNew }
        dsimp only at this
        omega

theorem downloadChapterLoop_all_fail (oracle : Nat → AttemptOutcome) (title : String) :
    ∀ (retries : Nat) (lastError : Option String) (st : DLState) (e : Nat → String),
      (∀ i, i < 3 * (retries + 1) → oracle (st.idx + i) = .fail (e i)) →
      downloadChapterLoop oracle title (retries + 1) lastError st =
        (.error ("Download failed after 3 attempts: " ++ e (3 * retries + 2)),
         { st with idx := st.idx + 3 * (retries + 1) }) := by
  intro retries
  induction retries with
  | zero =>
    intro lastError st e h
    rw [downloadChapterLoop]
    rw [dcc_all_fail oracle st.idx (e 0) (e 1) (e 2)
      (by simpa using h 0 (by omega)) (h 1 (by omega)) (h 2 (by omega))]
    dsimp only
    rw [if_pos rfl]
  | succ n ih =>
    intro lastError st e h
    rw [downloadChapterLoop]
    rw [dcc_all_fail oracle st.idx (e 0) (e 1) (e 2)
      (by simpa using h 0 (by omega)) (h 1 (by omega)) (h 2 (by omega))]
    dsimp only
    rw [if_neg (Nat.succ_ne_zero n)]
    have hshift : ∀ i, i < 3 * (n + 1) →
        oracle (({ st with idx := st.idx + 3 } : DLState).idx + i) = .fail (e (i + 3)) := by
      intro i hi
      have harith : st.idx + 3 + i = st.idx + (i + 3) := by omega
      rw [show (({ st with idx := st.idx + 3 } : DLState).idx + i) = st.idx + (i + 3) from harith]
      exact h (i + 3) (by omega)
    have hrec := ih (some ("Download failed after 3 attempts: " ++ e 2))
      { st with idx := st.idx + 3 } (fun i => e (i + 3)) hshift
    rw [hrec]
    dsimp only
    have h1 : 3 * n + 2 + 3 = 3 * (n + 1) + 2 := by omega
    have h2 : st.idx + 3 + 3 * (n + 1) = st.idx + 3 * (n + 1 + 1) := by omega
    rw [h1, h2]

/-- An oracle whose first seven attempts fail and which then succeeds:
the concrete scenario of seven consecutive fetch failures. -/
def failOracle7 : Nat → AttemptOutcome :=
  fun i => if i < 7 then .fail ("e" ++ toString i) else .ok "chapter-text"

/-- C1 (code bug): simulating 7 consecutive fetch failures of the
chapter fetcher.  The claim (and the spec) require the shared failure
counter to reach the threshold 7, reset to zero, and trigger exactly one
credential-refresh (`cookie.get`) invocation.  The code never does this:
`_download_chapter_content` raises on failure instead of returning
`'err'`, and the guard at line 374 (`if content == 'err': raise`) sits
before the refresh block at lines 383-388, so `self.tcs` is never
incremented and `cookie.get` is never invoked from the fetch path — the
refresh block is dead code (and even if reached, its `self.tcs > 7` test
would fire on the 8th failure, not the 7th).  Concretely: after 7
consecutive attempt failures (indices 0-6) followed by a success, the
fetch returns the decoded content with `refreshCount = 0` (the claim
expects 1) and `tcs = 0` (never incremented, rather than
incremented-and-reset), having consumed 8 oracle attempts. -/
theorem C1_refresh_never_invoked :
    download_chapter failOracle7 "ch1" [] initState =
      (.ok (some (.str "chapter-text")),
       { tcs := 0, cs := 1, refreshCount := 0, saveCount := 0,
         zj := [("ch1", JVal.str "chapter-text")], idx := 8 }) := by
  rfl

/-- An oracle on which every attempt fails, the message recording the
attempt index. -/
def allFailOracle : Nat → AttemptOutcome := fun i => .fail (toString i)

/-- C2 (counterexample): on a chapter whose download keeps failing, the
fetcher does NOT perform at most 3 attempts in total: the `retries = 3`
loop of `_download_chapter` retries `_download_chapter_content`, which
itself runs `for attempt in range(3)`, so a persistently failing chapter
consumes 9 endpoint attempts (oracle indices 0-8), and the error finally
raised wraps the message of the 9th attempt. -/
theorem C2_counterexample :
    (download_chapter allFailOracle "ch1" [] initState).2.idx = 9 ∧
    ¬ ((download_chapter allFailOracle "ch1" [] initState).2.idx ≤ 3) ∧
    (download_chapter allFailOracle "ch1" [] initState).1 =
      .error ("Download failed after 3 attempts: 8") := by
  refine ⟨rfl, ?_, rfl⟩
  intro hle
  rw [show (download_chapter allFailOracle "ch1" [] initState).2.idx = 9 from rfl] at hle
  omega

/-- C2 (amended): for a chapter absent from the existing content, the
fetcher performs at most 9 endpoint attempts in total — 3 invocations of
`_download_chapter_content`, each making up to 3 endpoint attempts with
a fixed 1-second delay between them — and when all attempts fail it
raises an error wrapping the last (9th) failure,
`Download failed after 3 attempts: {e}`. -/
theorem C2_retry_structure (oracle : Nat → AttemptOutcome) (title : String)
    (st : DLState) (e : Nat → String)
    (h : ∀ i, i < 9 → oracle (st.idx + i) = .fail (e i)) :
    download_chapter oracle title [] st =
      (.error ("Download failed after 3 attempts: " ++ e 8),
       { st with idx := st.idx + 9 }) ∧
    ∀ oracle2 : Nat → AttemptOutcome,
      (download_chapter oracle2 title [] st).2.idx ≤ st.idx + 9 := by
  constructor
  · have hrun := downloadChapterLoop_all_fail oracle title 2 none st e (by
      intro i hi
      exact h i (by omega))
    have hentry : download_chapter oracle title [] st =
        downloadChapterLoop oracle title 3 none st := rfl
    rw [hentry]
    rw [show (3 : Nat) = 2 + 1 from rfl]
    rw [hrun]
  · intro oracle2
    have hentry : download_chapter oracle2 title [] st =
        downloadChapterLoop oracle2 title 3 none st := rfl
    rw [hentry]
    have := downloadChapterLoop_idx_le oracle2 title 3 none st
    omega

/-- Witness for C2: the amended retry-structure theorem applied to the
concrete all-failing oracle. -/
theorem C2_retry_structure_witness :
    download_chapter allFailOracle "ch1" [] initState =
      (.error ("Download failed after 3 attempts: " ++ toString 8),
       { initState with idx := initState.idx + 9 }) := by
  have h := C2_retry_structure allFailOracle "ch1" initState (fun i => toString i)
    (by intro i hi; simp [allFailOracle, initState])
  exact h.1

/-! ### Orchestration fold

The `as_completed` loop of `_download_txt` (lines 251-271): completed
futures are folded into the in-memory `content` dict in arrival order,
with a periodic checkpoint write of the whole dict. -/

/-- Result of one completed future of `_download_chapter`, as the
`as_completed` loop sees it: the chapter title with `future.result()`
(a value, `None`, or a raised exception). -/
abbrev Completion := String × Except String (Option JVal)

/-- State of the `as_completed` loop: the in-memory `content` dict, the
`completed_chapters` counter, the pre-increment counter values at which
a periodic checkpoint fired, and the content snapshots those checkpoints
wrote to the book JSON file. -/
structure FoldState where
  content : Record
  completed : Nat
  checkpoints : List Nat
  writes : List Record
deriving DecidableEq, Repr

/-- Python truthiness of `future.result()` as tested by
`if chapter_content:` at line 255. -/
def resultTruthy : Except String (Option JVal) → Bool
  | .ok (some v) => v.truthy
  | _ => false

/-- Body of the `as_completed` loop: a truthy result is folded into
`content` and, when `completed_chapters % 5 == 0` (tested before the
increment at line 264), the updated content is checkpointed; a falsy
result or an exception (logged) changes nothing; `completed_chapters`
is incremented in every case. -/
def foldStep (fs : FoldState) (ev : Completion) : FoldState :=
  let fs1 :=
    match ev.2 with
    | .ok (some v) =>
      if v.truthy then
        let newContent := dictUpdate fs.content ev.1 v
        if fs.completed % 5 = 0 then
          { fs with content := newContent,
                    checkpoints := fs.checkpoints ++ [fs.completed],
                    writes := fs.writes ++ [newContent] }
        else { fs with content := newContent }
      else fs
    | .ok none => fs
    | .error _ => fs
  { fs1 with completed := fs1.completed + 1 }

/-- The whole `as_completed` loop over the completion events in arrival
order, starting from the merged existing content
(`content = existing_content.copy()`, line 239). -/
def foldCompletions (existing : Record) (events : List Completion) : FoldState :=
  events.foldl foldStep
    { content := existing, completed := 0, checkpoints := [], writes := [] }

/-- A checkpoint fires at a completion exactly when the pre-increment
counter is divisible by 5 and the result was truthy. -/
def checkpointPred (n : Nat) (ev : Completion) : Bool :=
  decide (n % 5 = 0) && resultTruthy ev.2

theorem foldStep_counter (fs : FoldState) (ev : Completion) :
    (foldStep fs ev).completed = fs.completed + 1 ∧
    (foldStep fs ev).checkpoints =
      fs.checkpoints ++ (if checkpointPred fs.completed ev then [fs.completed] else []) := by
  rcases ev with ⟨t, res⟩
  rcases res with err | v
  · simp [foldStep, checkpointPred, resultTruthy]
  · rcases v with _ | v
    · simp [foldStep, checkpointPred, resultTruthy]
    · by_cases ht : v.truthy
      · by_cases hc : fs.completed % 5 = 0
        · simp [foldStep, checkpointPred, resultTruthy, ht, hc]
        · simp [foldStep, checkpointPred, resultTruthy, ht, hc]
      · simp [foldStep, checkpointPred, resultTruthy, ht]

theorem foldl_checkpoints :
    ∀ (events : List Completion) (fs : FoldState),
      (events.foldl foldStep fs).completed = fs.completed + events.length ∧
      (events.foldl foldStep fs).checkpoints =
        fs.checkpoints ++ ((List.enumFrom fs.completed events).filter
          (fun p => checkpointPred p.1 p.2)).map Prod.fst := by
  intro events
  induction events with
  | nil =>
    intro fs
    simp [List.enumFrom]
  | cons ev rest ih =>
    intro fs
    rw [List.foldl_cons]
    obtain ⟨h1, h2⟩ := foldStep_counter fs ev
    obtain ⟨hr1, hr2⟩ := ih (foldStep fs ev)
    constructor
    · rw [hr1, h1, List.length_cons]
      omega
    · rw [hr2, h2, h1]
      rw [show List.enumFrom fs.completed (ev :: rest)
        = (fs.completed, ev) :: List.enumFrom (fs.completed + 1) rest from rfl]
      rw [List.filter_cons]
      by_cases hc : checkpointPred fs.completed ev
      · rw [if_pos hc, if_pos (by simpa using hc), List.map_cons, List.append_assoc]
        rfl
      · rw [if_neg hc, if_neg (by simpa using hc), List.append_nil]

/-- C5 (amended): the orchestrator checkpoints at exactly those
completions whose pre-increment completion count is divisible by 5 —
that is, at the 1st, 6th, 11th, ... completion, not after every 5 — and
only when that completion returned a truthy result.  `completed` ends at
the number of events. -/
theorem C5_checkpoint_positions (existing : Record) (events : List Completion) :
    (foldCompletions existing events).completed = events.length ∧
    (foldCompletions existing events).checkpoints =
      ((List.enumFrom 0 events).filter (fun p => checkpointPred p.1 p.2)).map Prod.fst := by
  obtain ⟨h1, h2⟩ := foldl_checkpoints events
    { content := existing, completed := 0, checkpoints := [], writes := [] }
  exact ⟨by simpa using h1, by simpa using h2⟩

/-- C5 (counterexample): five successfully completed chapters produce a
single checkpoint, fired at the first completion (pre-increment counter
0), and no checkpoint at the fifth completion — whereas checkpointing
"exactly after every 5 completions" would fire exactly at the fifth
(pre-increment counter 4). -/
theorem C5_counterexample :
    (foldCompletions []
      [("c1", .ok (some (.str "t1"))), ("c2", .ok (some (.str "t2"))),
       ("c3", .ok (some (.str "t3"))), ("c4", .ok (some (.str "t4"))),
       ("c5", .ok (some (.str "t5")))]).checkpoints = [0] ∧
    (foldCompletions []
      [("c1", .ok (some (.str "t1"))), ("c2", .ok (some (.str "t2"))),
       ("c3", .ok (some (.str "t3"))), ("c4", .ok (some (.str "t4"))),
       ("c5", .ok (some (.str "t5")))]).checkpoints ≠ [4] := by
  constructor
  · rfl
  · intro hcontra
    rw [show (foldCompletions []
      [("c1", .ok (some (.str "t1"))), ("c2", .ok (some (.str "t2"))),
       ("c3", .ok (some (.str "t3"))), ("c4", .ok (some (.str "t4"))),
       ("c5", .ok (some (.str "t5")))]).checkpoints = [0] from rfl] at hcontra
    simp at hcontra

/-! ### Renderers

`_save_single_txt` (lines 430-442) and the ordering step of
`_download_latex` (lines 568-571). -/

/-- Python string repetition `kgf * kg`. -/
def strRepeat (kgf : String) (kg : Nat) : String :=
  String.join (List.replicate kg kgf)

/-- Python `str()` of the metadata dict, as interpolated by the f-string
in `_save_single_txt` when the value is not a string (single-quoted repr
of a flat dict). -/
def Meta.pyRepr (m : Meta) : String :=
  "\x7b\x27novel_id\x27: \x27" ++ m.novelId ++ "\x27, \x27name\x27: \x27" ++ m.name ++
    "\x27, \x27status\x27: " ++
    (match m.status with
     | some s => "\x27" ++ s ++ "\x27"
     | none => "None") ++
    ", \x27last_updated\x27: \x27" ++ m.lastUpdated ++ "\x27\x7d"

/-- Python `str()` of a record value, as written by `f.write(f'...')`. -/
def JVal.pyStr : JVal → String
  | .str s => s
  | .meta m => m.pyRepr

/-- Body written for one entry of the content dict by `_save_single_txt`
(lines 438-441): with `kg = 0` the value is interpolated directly; with
`kg ≠ 0` Python calls `.replace` on the value — which raises
`AttributeError` when the value is the metadata dict.  The replacement
string is `fg = chr(10) ++ kgf * kg`. -/
def renderBlock (kg : Nat) (kgf : String) (v : JVal) : Except String String :=
  if kg = 0 then .ok (JVal.pyStr v ++ "\n")
  else
    match v with
    | .str s => .ok (s.replace "\n" ("\n" ++ strRepeat kgf kg) ++ "\n")
    | .meta _ => .error "AttributeError: dict object has no attribute replace"

/-- Embedding of `_save_single_txt` (lines 430-442): iterate the content
dict in order, writing for each entry a header naming the key and then
the rendered body.  The iteration applies no filter, so the reserved
`_metadata` key is rendered like any chapter.  The result is the ordered
list of `(title, body)` blocks, or the exception Python would raise. -/
def save_single_txt (kg : Nat) (kgf : String) : Record → Except String (List (String × String))
  | [] => .ok []
  | (t, v) :: rest =>
    match renderBlock kg kgf v with
    | .error e => .error e
    | .ok body =>
      match save_single_txt kg kgf rest with
      | .error e => .error e
      | .ok blocks => .ok ((t, body) :: blocks)

theorem save_single_txt_keys (kgf : String) :
    ∀ content : Record, ∃ blocks, save_single_txt 0 kgf content = .ok blocks ∧
      blocks.map Prod.fst = content.map Prod.fst := by
  intro content
  induction content with
  | nil => exact ⟨[], rfl, rfl⟩
  | cons p rest ih =>
    obtain ⟨blocks, hb, hk⟩ := ih
    rcases p with ⟨t, v⟩
    refine ⟨(t, JVal.pyStr v ++ "\n") :: blocks, ?_, ?_⟩
    · rw [save_single_txt]
      rw [show renderBlock 0 kgf v = .ok (JVal.pyStr v ++ "\n") from rfl]
      rw [hb]
    · simp [hk]

/-- C10: the single-TXT renderer iterates every key of the content dict
without filtering, so (with the default spacing configuration `kg = 0`,
under which nothing raises) a record carrying the reserved `_metadata`
key — as every record produced by `_download_txt` does — gets an output
block titled `_metadata`, rendered as if it were a chapter, and the
block titles are exactly the dict keys in order. -/
theorem C10_metadata_rendered (kgf : String) (m : Meta) (content : Record) :
    ∃ blocks,
      save_single_txt 0 kgf (("_metadata", JVal.meta m) :: content) = .ok blocks ∧
      blocks.map Prod.fst = "_metadata" :: content.map Prod.fst := by
  obtain ⟨blocks, hb, hk⟩ := save_single_txt_keys kgf content
  refine ⟨("_metadata", JVal.pyStr (JVal.meta m) ++ "\n") :: blocks, ?_, by simp [hk]⟩
  rw [save_single_txt]
  rw [show renderBlock 0 kgf (JVal.meta m) = .ok (JVal.pyStr (JVal.meta m) ++ "\n") from rfl]
  rw [hb]

/-- C3 (counterexample): a fresh book with chapter list A, B, C whose
fetches complete in order C, A, B.  The in-memory content dict receives
the chapters in completion order (dict insertion order), and
`_save_single_txt` iterates that dict order, so the rendered TXT
presents the chapters as C, A, B — not the original chapter-list order
A, B, C. -/
theorem C3_counterexample :
    ∃ blocks,
      save_single_txt 0 "x"
        ((foldCompletions
          [("_metadata", JVal.meta
            { novelId := "7143038691944959011", name := "book",
              status := some "ongoing", lastUpdated := "2024-01-01 00:00:00" })]
          [("C", .ok (some (.str "c-text"))), ("A", .ok (some (.str "a-text"))),
           ("B", .ok (some (.str "b-text")))]).content) = .ok blocks ∧
      blocks.map Prod.fst = ["_metadata", "C", "A", "B"] ∧
      blocks.map Prod.fst ≠ ["_metadata", "A", "B", "C"] := by
  refine ⟨_, rfl, rfl, by decide⟩

/-- Position of a title in the original chapter list:
`list(chapters.keys()).index(x[0])` at line 569.  Titles reaching the
sort key always come from the submitted futures, hence from `chapters`,
so the `ValueError` branch of `index` cannot occur; out-of-list titles
map to the list length. -/
def chapterIndex (chapters : List (String × String)) (t : String) : Nat :=
  (chapters.map Prod.fst).indexOf t

/-- The `chapter_contents` accumulator of `_download_latex` (lines
550-566): truthy completed results are appended in arrival order;
failures are logged and skipped. -/
def latexCollect (events : List Completion) : List (String × JVal) :=
  events.foldl
    (fun acc ev =>
      match ev.2 with
      | .ok (some v) => if v.truthy then acc ++ [(ev.1, v)] else acc
      | _ => acc) []

/-- Line 569 of `_download_latex`: before rendering, the collected
results are stably sorted by original chapter-list position
(`chapter_contents.sort(key=lambda x: list(chapters.keys()).index(x[0]))`). -/
def latexOrdered (chapters : List (String × String)) (events : List Completion) :
    List (String × JVal) :=
  (latexCollect events).mergeSort
    (fun a b => decide (chapterIndex chapters a.1 ≤ chapterIndex chapters b.1))

/-- C3 (amended): the LaTeX path restores chapter-list order — for every
chapter list and every completion order, the rendered sequence is a
permutation of the collected results ordered by original chapter-list
position, never by completion order; the single-TXT path instead renders
in content-dict insertion order, i.e. newly fetched chapters appear in
completion order (see the counterexample). -/
theorem C3_latex_order_restored (chapters : List (String × String))
    (events : List Completion) :
    (latexOrdered chapters events).Perm (latexCollect events) ∧
    List.Pairwise
      (fun a b => chapterIndex chapters a.1 ≤ chapterIndex chapters b.1)
      (latexOrdered chapters events) := by
  constructor
  · exact List.mergeSort_perm _ _
  · have hs : List.Pairwise
        (fun a b => (decide (chapterIndex chapters a.1 ≤ chapterIndex chapters b.1)) = true)
        (latexOrdered chapters events) := by
      unfold latexOrdered
      apply List.sorted_mergeSort
      · intro a b c h1 h2
        simp only [decide_eq_true_eq] at h1 h2 ⊢
        omega
      · intro a b
        simp only [Bool.or_eq_true, decide_eq_true_eq]
        omega
    exact hs.imp (fun h => by simpa using h)

/-! ### Content store merge and TXT pipeline

`_download_txt` (lines 192-287), `_get_chapter_list` (lines 608-631)
and the status dispatch of `download_novel` (lines 112-145). -/

/-- The metadata dict built at lines 211-218 of `_download_txt`:
`status[0] if status else None`, plus the run timestamp produced by
`time.strftime`. -/
def mkMetadata (novelId name : String) (status : List String) (ts : String) : Meta :=
  { novelId := novelId, name := name, status := status.head?, lastUpdated := ts }

/-- Lines 225-227 of `_download_txt`:
`existing_content.update(metadata)` — merge the fresh metadata block
into the loaded record. -/
def mergeMetadata (existing : Record) (m : Meta) : Record :=
  dictUpdate existing "_metadata" (.meta m)

/-- C6: merging fresh metadata into an existing per-book record
overwrites only the `_metadata` block: every entry under any other key —
every previously recovered chapter — is preserved unchanged and in
place, and the `_metadata` key afterwards holds exactly the fresh
metadata. -/
theorem C6_merge_preserves_chapters (existing : Record) (m : Meta) :
    (mergeMetadata existing m).filter (fun p => p.1 != "_metadata")
      = existing.filter (fun p => p.1 != "_metadata") ∧
    dictGet? (mergeMetadata existing m) "_metadata" = some (.meta m) :=
  ⟨filter_dictUpdate existing "_metadata" (.meta m),
   dictGet?_dictUpdate_self existing "_metadata" (.meta m)⟩

/-- Embedding of `_get_chapter_list` (lines 608-631) over the parsed
page: `aElems` lists the chapter anchor elements as (text, optional
href) pairs, `titleXp` and `statusXp` the xpath results for the book
title and serialization status.  Returns `(name, chapters, status)`,
with name `'err'` when the page yields no chapter elements, or no title,
or no status. -/
def get_chapter_list (aElems : List (String × Option String))
    (titleXp statusXp : List String) :
    String × List (String × String) × List String :=
  if aElems.isEmpty then ("err", [], [])
  else
    let chapters := aElems.foldl
      (fun acc a =>
        match a.2 with
        | none => acc
        | some href => dictUpdate acc a.1 (((href.splitOn "/").getLast?).getD ""))
      []
    match titleXp, statusXp with
    | t :: _, _ :: _ => (t, chapters, statusXp)
    | _, _ => ("err", [], [])

/-- The status dispatch of `download_novel` (lines 133-141): the marker
`'err'` yields `False` (book not found, `找不到此书`); anything else
yields `True`. -/
def download_novel_result (s : String) : Bool :=
  if s = "err" then false else true

/-- The futures submitted by `_download_txt` (lines 240-249), executed
and collected in completion order (`concurrent.futures.as_completed`;
with `xc = 1`, the default, execution is sequential): each chapter runs
`_download_chapter` against the merged existing content, threading the
shared downloader state.  Returns the completion events in arrival order
together with the final state. -/
def runChapters (oracle : Nat → AttemptOutcome) (existing : Record) :
    DLState → List (String × String) → List Completion × DLState
  | st, [] => ([], st)
  | st, (title, _chapterId) :: rest =>
    let r1 := download_chapter oracle title existing st
    let r2 := runChapters oracle existing r1.2 rest
    ((title, r1.1) :: r2.1, r2.2)

/-- Observable outcome of `_download_txt`: the returned status string,
the final in-memory content, every write to the per-book JSON file in
order, every rendered TXT artifact, and the final downloader state. -/
structure TxtOutcome where
  status : String
  record : Record
  jsonWrites : List Record
  txtWrites : List (List (String × String))
  st : DLState
deriving Repr

/-- Embedding of `_download_txt` in SINGLE_TXT mode: return `'err'`
with no writes when the chapter list is unrecognizable; otherwise build
the metadata block, load-and-merge the per-book record (or create it
and immediately save it, lines 220-232), download all chapters (the
completions arriving in `arrival` order, a permutation of `chapters`),
fold them with periodic checkpoints, save the final content
(lines 273-275), and render the TXT artifact. -/
def download_txt (oracle : Nat → AttemptOutcome) (novelId : String) (ts : String)
    (clr : String × List (String × String) × List String)
    (existingFile : Option Record) (kg : Nat) (kgf : String)
    (arrival : List (String × String)) (st : DLState) : TxtOutcome :=
  match clr with
  | (name, _chapters, status) =>
    if name = "err" then
      { status := "err", record := [], jsonWrites := [], txtWrites := [], st := st }
    else
      let m := mkMetadata novelId name status ts
      let existingContent :=
        match existingFile with
        | some ec => mergeMetadata ec m
        | none => [("_metadata", JVal.meta m)]
      let initWrites : List Record :=
        match existingFile with
        | some _ => []
        | none => [existingContent]
      let run := runChapters oracle existingContent st arrival
      let fs := foldCompletions existingContent run.1
      let rendered := save_single_txt kg kgf fs.content
      { status := match rendered with | .ok _ => "s" | .error e => "raised " ++ e,
        record := fs.content,
        jsonWrites := initWrites ++ fs.writes ++ [fs.content],
        txtWrites := match rendered with | .ok blocks => [blocks] | .error _ => [],
        st := run.2 }

/-- C7: when the chapter-list page yields no recognizable chapter list
(no anchor elements), or no title, or no status, `_get_chapter_list`
returns the `'err'` marker, `_download_txt` propagates it before
touching the file system — no JSON write, no TXT artifact — and
`download_novel` reports the not-found outcome (`False`). -/
theorem C7_not_found_writes_nothing (aElems : List (String × Option String))
    (titleXp statusXp : List String) (oracle : Nat → AttemptOutcome)
    (novelId ts : String) (existingFile : Option Record) (kg : Nat) (kgf : String)
    (arrival : List (String × String)) (st : DLState)
    (h : aElems = [] ∨ titleXp = [] ∨ statusXp = []) :
    get_chapter_list aElems titleXp statusXp = ("err", [], []) ∧
    download_txt oracle novelId ts (get_chapter_list aElems titleXp statusXp)
        existingFile kg kgf arrival st =
      { status := "err", record := [], jsonWrites := [], txtWrites := [], st := st } ∧
    download_novel_result
      (download_txt oracle novelId ts (get_chapter_list aElems titleXp statusXp)
        existingFile kg kgf arrival st).status = false := by
  have hgcl : get_chapter_list aElems titleXp statusXp = ("err", [], []) := by
    unfold get_chapter_list
    rcases h with h | h | h
    · subst h
      rfl
    · subst h
      by_cases he : aElems.isEmpty
      · rw [if_pos he]
      · rw [if_neg he]
    · subst h
      by_cases he : aElems.isEmpty
      · rw [if_pos he]
      · rw [if_neg he]
        cases titleXp <;> rfl
  have hdl : download_txt oracle novelId ts (get_chapter_list aElems titleXp statusXp)
      existingFile kg kgf arrival st =
      { status := "err", record := [], jsonWrites := [], txtWrites := [], st := st } := by
    rw [hgcl]
    rfl
  refine ⟨hgcl, hdl, ?_⟩
  rw [hdl]
  rfl

/-- Witness for C7: the empty chapter-list page. -/
theorem C7_not_found_writes_nothing_witness :
    get_chapter_list [] ["title"] ["ongoing"] = ("err", [], []) ∧
    download_txt (fun _ => AttemptOutcome.fail "net") "123" "2024-01-01 00:00:00"
        (get_chapter_list [] ["title"] ["ongoing"]) none 0 "x" [] initState =
      { status := "err", record := [], jsonWrites := [], txtWrites := [], st := initState } ∧
    download_novel_result
      (download_txt (fun _ => AttemptOutcome.fail "net") "123" "2024-01-01 00:00:00"
        (get_chapter_list [] ["title"] ["ongoing"]) none 0 "x" [] initState).status = false :=
  C7_not_found_writes_nothing [] ["title"] ["ongoing"] (fun _ => AttemptOutcome.fail "net")
    "123" "2024-01-01 00:00:00" none 0 "x" [] initState (Or.inl rfl)

theorem runChapters_all_cached (oracle : Nat → AttemptOutcome) (R : Record) :
    ∀ (arrival : List (String × String)) (st : DLState),
      (∀ p ∈ arrival, ∃ v, dictGet? R p.1 = some v) →
      (runChapters oracle R st arrival).1 =
        arrival.map (fun p => (p.1, Except.ok (dictGet? R p.1))) ∧
      (runChapters oracle R st arrival).2.idx = st.idx := by
  intro arrival
  induction arrival with
  | nil =>
    intro st _
    exact ⟨rfl, rfl⟩
  | cons p rest ih =>
    intro st hall
    rcases p with ⟨title, cid⟩
    obtain ⟨v, hv⟩ := hall (title, cid) (List.mem_cons_self _ _)
    have hdc : download_chapter oracle title R st =
        (.ok (some v), { st with zj := dictUpdate st.zj title v }) := by
      unfold download_chapter
      rw [hv]
    rw [runChapters]
    dsimp only
    rw [hdc]
    obtain ⟨h1, h2⟩ := ih { st with zj := dictUpdate st.zj title v }
      (fun q hq => hall q (List.mem_cons_of_mem _ hq))
    constructor
    · show (title, Except.ok (some v)) :: (runChapters oracle R _ rest).1 = _
      rw [h1, List.map_cons, hv]
    · show (runChapters oracle R _ rest).2.idx = st.idx
      rw [h2]

theorem foldl_content_cached {R : Record} (hnd : (R.map Prod.fst).Nodup) :
    ∀ (events : List Completion) (fs : FoldState), fs.content = R →
      (∀ ev ∈ events, ∃ v, dictGet? R ev.1 = some v ∧ ev.2 = .ok (some v)) →
      (events.foldl foldStep fs).content = R := by
  intro events
  induction events with
  | nil =>
    intro fs hc _
    exact hc
  | cons ev rest ih =>
    intro fs hc hall
    obtain ⟨v, hv, hev⟩ := hall ev (List.mem_cons_self _ _)
    rw [List.foldl_cons]
    apply ih (foldStep fs ev) ?_ (fun q hq => hall q (List.mem_cons_of_mem _ hq))
    rcases ev with ⟨t, res⟩
    simp only at hev
    subst hev
    by_cases ht : v.truthy
    · by_cases hcp : fs.completed % 5 = 0
      · simp [foldStep, ht, hcp, hc, dictUpdate_eq_self hnd hv]
      · simp [foldStep, ht, hcp, hc, dictUpdate_eq_self hnd hv]
    · simp [foldStep, ht, hc]

/-- C4: resume behaviour and idempotence.  First, for every chapter
whose title is already a key of the existing content passed to
`_download_chapter`, the stored value is returned immediately with no
network attempt (the oracle index is untouched; only `self.zj` changes).
Second, running the TXT pipeline over a stored record `R` that already
holds every chapter of the run and the same metadata (same book, same
remote status, same timestamp — no remote changes) returns the identical
record `R` and performs zero network attempts. -/
theorem C4_resume_and_idempotence :
    (∀ (oracle : Nat → AttemptOutcome) (title : String) (existing : Record)
        (st : DLState) (v : JVal), dictGet? existing title = some v →
        download_chapter oracle title existing st =
          (.ok (some v), { st with zj := dictUpdate st.zj title v })) ∧
    (∀ (oracle : Nat → AttemptOutcome) (novelId ts name : String)
        (chapters : List (String × String)) (status : List String)
        (kg : Nat) (kgf : String) (arrival : List (String × String))
        (st : DLState) (R : Record),
        name ≠ "err" →
        (R.map Prod.fst).Nodup →
        dictGet? R "_metadata" = some (.meta (mkMetadata novelId name status ts)) →
        (∀ p ∈ arrival, ∃ v, dictGet? R p.1 = some v) →
        (download_txt oracle novelId ts (name, chapters, status) (some R)
            kg kgf arrival st).record = R ∧
        (download_txt oracle novelId ts (name, chapters, status) (some R)
            kg kgf arrival st).st.idx = st.idx) := by
  constructor
  · intro oracle title existing st v hget
    unfold download_chapter
    rw [hget]
  · intro oracle novelId ts name chapters status kg kgf arrival st R hname hnd hmeta hall
    have hmerge : mergeMetadata R (mkMetadata novelId name status ts) = R :=
      dictUpdate_eq_self hnd hmeta
    unfold download_txt
    dsimp only
    rw [if_neg hname]
    dsimp only
    rw [hmerge]
    obtain ⟨hev, hidx⟩ := runChapters_all_cached oracle R arrival st hall
    rw [hev]
    have hfold : ((arrival.map (fun p => (p.1, Except.ok (dictGet? R p.1)))).foldl foldStep
        { content := R, completed := 0, checkpoints := [], writes := [] }).content = R := by
      apply foldl_content_cached hnd _ _ rfl
      intro ev hm
      obtain ⟨p, hp, hpe⟩ := List.mem_map.mp hm
      obtain ⟨v, hv⟩ := hall p hp
      subst hpe
      exact ⟨v, hv, by rw [hv]⟩
    refine ⟨?_, ?_⟩
    · dsimp only [foldCompletions]
      exact hfold
    · exact hidx

/-- Witness for C4: one chapter, already stored, same metadata; the
fetch oracle fails on every attempt, so any network access would be
visible — yet the run returns the record unchanged with zero attempts. -/
theorem C4_resume_and_idempotence_witness :
    download_chapter (fun _ => AttemptOutcome.fail "net") "ch1"
        [("_metadata", JVal.meta (mkMetadata "77" "book" ["ongoing"] "2024-01-01 00:00:00")),
         ("ch1", JVal.str "one")] initState =
      (.ok (some (.str "one")),
       { initState with zj := dictUpdate initState.zj "ch1" (.str "one") }) ∧
    ((download_txt (fun _ => AttemptOutcome.fail "net") "77" "2024-01-01 00:00:00"
        ("book", [("ch1", "101")], ["ongoing"])
        (some [("_metadata", JVal.meta (mkMetadata "77" "book" ["ongoing"] "2024-01-01 00:00:00")),
               ("ch1", JVal.str "one")])
        0 "x" [("ch1", "101")] initState).record =
      [("_metadata", JVal.meta (mkMetadata "77" "book" ["ongoing"] "2024-01-01 00:00:00")),
       ("ch1", JVal.str "one")] ∧
     (download_txt (fun _ => AttemptOutcome.fail "net") "77" "2024-01-01 00:00:00"
        ("book", [("ch1", "101")], ["ongoing"])
        (some [("_metadata", JVal.meta (mkMetadata "77" "book" ["ongoing"] "2024-01-01 00:00:00")),
               ("ch1", JVal.str "one")])
        0 "x" [("ch1", "101")] initState).st.idx = initState.idx) := by
  constructor
  · exact C4_resume_and_idempotence.1 (fun _ => AttemptOutcome.fail "net") "ch1" _
      initState (.str "one") rfl
  · exact C4_resume_and_idempotence.2 (fun _ => AttemptOutcome.fail "net") "77"
      "2024-01-01 00:00:00" "book" [("ch1", "101")] ["ongoing"] 0 "x" [("ch1", "101")]
      initState
      [("_metadata", JVal.meta (mkMetadata "77" "book" ["ongoing"] "2024-01-01 00:00:00")),
       ("ch1", JVal.str "one")]
      (by decide) (by decide) rfl
      (by
        intro p hp
        have hp1 := List.mem_singleton.mp hp
        subst hp1
        exact ⟨.str "one", rfl⟩)

/-! ### EPUB, HTML and LaTeX chapter wrappers

`_download_chapter_for_epub` (lines 411-428),
`_download_chapter_for_html` (lines 586-599) and
`_download_chapter_for_latex` (lines 601-606).  All three call
`self._download_chapter(title, chapter_id, {})` — the empty dict
literal — and then hand the content to the respective formatter (the
HTML and LaTeX formatters live in the external `format` module and are
passed in as parameters). -/

/-- Embedding of `_download_chapter_for_epub`: fetch with an empty
existing-content dict, return `None` on falsy content, else the chapter
title with the formatted XHTML body. -/
def download_chapter_for_epub (oracle : Nat → AttemptOutcome)
    (title _chapterId : String) (kg : Nat) (kgf : String) (st : DLState) :
    Except String (Option (String × String)) × DLState :=
  match download_chapter oracle title [] st with
  | (.ok (some v), st1) =>
    if v.truthy then
      (.ok (some (title, "<h1>" ++ title ++ "</h1><p>" ++
        (JVal.pyStr v).replace "\n" ("\n" ++ strRepeat kgf kg) ++ "</p>")), st1)
    else (.ok none, st1)
  | (.ok none, st1) => (.ok none, st1)
  | (.error e, st1) => (.error e, st1)

/-- Embedding of `_download_chapter_for_html`: fetch with an empty
existing-content dict, return without writing on falsy content, else
write the file rendered by the `format.html.content` collaborator
(`fmt`). -/
def download_chapter_for_html (oracle : Nat → AttemptOutcome)
    (title _chapterId : String) (fmt : String → String → String) (st : DLState) :
    Except String (Option (String × String)) × DLState :=
  match download_chapter oracle title [] st with
  | (.ok (some v), st1) =>
    if v.truthy then (.ok (some (title, fmt title (JVal.pyStr v))), st1)
    else (.ok none, st1)
  | (.ok none, st1) => (.ok none, st1)
  | (.error e, st1) => (.error e, st1)

/-- Embedding of `_download_chapter_for_latex`: fetch with an empty
existing-content dict, return `None` on falsy content, else the chapter
rendered by the `format.latex.chapter` collaborator (`fmt`). -/
def download_chapter_for_latex (oracle : Nat → AttemptOutcome)
    (title _chapterId : String) (fmt : String → String → String) (st : DLState) :
    Except String (Option String) × DLState :=
  match download_chapter oracle title [] st with
  | (.ok (some v), st1) =>
    if v.truthy then (.ok (some (fmt title (JVal.pyStr v))), st1)
    else (.ok none, st1)
  | (.ok none, st1) => (.ok none, st1)
  | (.error e, st1) => (.error e, st1)

theorem downloadChapterLoop_idx_ge (oracle : Nat → AttemptOutcome) (title : String) :
    ∀ (retries : Nat) (lastError : Option String) (st : DLState),
      st.idx ≤ (downloadChapterLoop oracle title retries lastError st).2.idx := by
  intro retries
  induction retries with
  | zero =>
    intro lastError st
    cases lastError <;> simp [downloadChapterLoop]
  | succ n ih =>
    intro lastError st
    rw [downloadChapterLoop]
    rcases hd : download_chapter_content oracle st.idx with ⟨res, idxNew⟩
    have hb := dcc_idx_bounds oracle st.idx
    rw [hd] at hb
    dsimp only at hb
    cases res with
    | ok content =>
      dsimp only
      by_cases h : content = "err"
      · rw [dif_pos h]
        by_cases hr : n = 0
        · rw [if_pos hr]
          dsimp only
          omega
        · rw [if_neg hr]
          have := ih (some "Download failed") { st with idx := idxNew }
          dsimp only at this
          omega
      · rw [dif_neg h, dif_neg h]
        dsimp only
        rw [progressStep_idx]
        dsimp only
        omega
    | error e =>
      dsimp only
      by_cases hr : n = 0
      · rw [if_pos hr]
        dsimp only
        omega
      · rw [if_neg hr]
        have := ih (some e) { st with idx := idxNew }
        dsimp only at this
        omega

theorem download_chapter_empty_fetches (oracle : Nat → AttemptOutcome)
    (title : String) (st : DLState) :
    st.idx + 1 ≤ (download_chapter oracle title [] st).2.idx := by
  have hentry : download_chapter oracle title [] st =
      downloadChapterLoop oracle title 3 none st := rfl
  rw [hentry]
  rw [show (3 : Nat) = 2 + 1 from rfl, downloadChapterLoop]
  rcases hd : download_chapter_content oracle st.idx with ⟨res, idxNew⟩
  have hb := dcc_idx_bounds oracle st.idx
  rw [hd] at hb
  dsimp only at hb
  cases res with
  | ok content =>
    dsimp only
    by_cases h : content = "err"
    · rw [dif_pos h]
      rw [if_neg (by omega : ¬(2 : Nat) = 0)]
      have := downloadChapterLoop_idx_ge oracle title 2 (some "Download failed")
        { st with idx := idxNew }
      dsimp only at this
      omega
    · rw [dif_neg h, dif_neg h]
      dsimp only
      rw [progressStep_idx]
      dsimp only
      omega
  | error e =>
    dsimp only
    rw [if_neg (by omega : ¬(2 : Nat) = 0)]
    have := downloadChapterLoop_idx_ge oracle title 2 (some e) { st with idx := idxNew }
    dsimp only at this
    omega

theorem download_chapter_for_epub_idx (oracle : Nat → AttemptOutcome)
    (title cid : String) (kg : Nat) (kgf : String) (st : DLState) :
    (download_chapter_for_epub oracle title cid kg kgf st).2 =
      (download_chapter oracle title [] st).2 := by
  unfold download_chapter_for_epub
  rcases hd : download_chapter oracle title [] st with ⟨res, st1⟩
  rcases res with e | v
  · rfl
  · rcases v with _ | v
    · rfl
    · dsimp only
      by_cases ht : v.truthy
      · rw [if_pos ht]
      · rw [if_neg ht]

theorem download_chapter_for_html_idx (oracle : Nat → AttemptOutcome)
    (title cid : String) (fmt : String → String → String) (st : DLState) :
    (download_chapter_for_html oracle title cid fmt st).2 =
      (download_chapter oracle title [] st).2 := by
  unfold download_chapter_for_html
  rcases hd : download_chapter oracle title [] st with ⟨res, st1⟩
  rcases res with e | v
  · rfl
  · rcases v with _ | v
    · rfl
    · dsimp only
      by_cases ht : v.truthy
      · rw [if_pos ht]
      · rw [if_neg ht]

theorem download_chapter_for_latex_idx (oracle : Nat → AttemptOutcome)
    (title cid : String) (fmt : String → String → String) (st : DLState) :
    (download_chapter_for_latex oracle title cid fmt st).2 =
      (download_chapter oracle title [] st).2 := by
  unfold download_chapter_for_latex
  rcases hd : download_chapter oracle title [] st with ⟨res, st1⟩
  rcases res with e | v
  · rfl
  · rcases v with _ | v
    · rfl
    · dsimp only
      by_cases ht : v.truthy
      · rw [if_pos ht]
      · rw [if_neg ht]

/-- C9: the EPUB, HTML and LaTeX chapter wrappers invoke the chapter
fetcher with an empty existing-content mapping (the `{}` literal), so
the stored-content early return can never fire: whatever the content
store holds, every chapter consumes at least one network attempt on
every run in these save modes.  Resume/skip behaviour exists only in
the TXT path, whose `download_txt` passes its merged record to the
fetcher (see `C4_resume_and_idempotence`). -/
theorem C9_formats_always_refetch (oracle : Nat → AttemptOutcome)
    (title chapterId : String) (kg : Nat) (kgf : String)
    (fmtHtml fmtLatex : String → String → String) (st : DLState) :
    st.idx + 1 ≤ (download_chapter_for_epub oracle title chapterId kg kgf st).2.idx ∧
    st.idx + 1 ≤ (download_chapter_for_html oracle title chapterId fmtHtml st).2.idx ∧
    st.idx + 1 ≤ (download_chapter_for_latex oracle title chapterId fmtLatex st).2.idx := by
  refine ⟨?_, ?_, ?_⟩
  · rw [download_chapter_for_epub_idx]
    exact download_chapter_empty_fetches oracle title st
  · rw [download_chapter_for_html_idx]
    exact download_chapter_empty_fetches oracle title st
  · rw [download_chapter_for_latex_idx]
    exact download_chapter_empty_fetches oracle title st

end Fanqie
